import Mathlib

/-!
Verification of the event-dispatch and delivery pipeline of
go-whatsapp-web-multidevice (file src/pkg/whatsapp/whatsapp.go).

The Go source is shallowly embedded below.  Pure helpers become Lean
functions; the effectful parts (media download, file writes, HTTP POST)
are modelled by passing in explicit outcome environments and by
returning traces of the side-effecting calls that the code performs.
External collaborators (the whatsmeow client, the Go mime package, the
Go http client) appear as oracle parameters whose relevant guarantees
are stated as hypotheses where needed.
-/

set_option autoImplicit false

namespace Wa

/-! ## String helpers mirroring the Go strings package

The Go code uses strings.Contains, strings.ContainsRune and
strings.Split.  We embed them structurally over the character list of a
string so that every definition evaluates by rfl/decide.
-/

/-- listStartsWith pat s is true when pat is an initial segment of s
(mirrors the matching step used to decide substring containment). -/
def listStartsWith : List Char → List Char → Bool
  | [], _ => true
  | _ :: _, [] => false
  | a :: as, b :: bs => a == b && listStartsWith as bs

/-- listHasSub pat s is true when pat occurs contiguously inside s;
this is the semantics of Go strings.Contains for non-empty pat. -/
def listHasSub (pat : List Char) : List Char → Bool
  | [] => listStartsWith pat []
  | s@(_ :: rest) => listStartsWith pat s || listHasSub pat rest

/-- strContains s pat embeds Go strings.Contains(s, pat) (for the
non-empty literal patterns used by the source). -/
def strContains (s pat : String) : Bool :=
  listHasSub pat.data s.data

/-- listIsSuffixB pat s is true when pat is a final segment of s. -/
def listIsSuffixB (pat : List Char) : List Char → Bool
  | [] => pat == []
  | s@(_ :: rest) => pat == s || listIsSuffixB pat rest

/-- strEndsWith s pat: s ends with pat (used to state the group-class
address notion of the specification). -/
def strEndsWith (s pat : String) : Bool :=
  listIsSuffixB pat.data s.data

theorem listStartsWith_refl (l : List Char) : listStartsWith l l = true := by
  induction l with
  | nil => rfl
  | cons a as ih => simp [listStartsWith, ih]

theorem listHasSub_of_suffix (pat s : List Char) (h : listIsSuffixB pat s = true) :
    listHasSub pat s = true := by
  induction s with
  | nil =>
    simp [listIsSuffixB] at h
    simp [h, listHasSub, listStartsWith]
  | cons c rest ih =>
    simp only [listIsSuffixB, Bool.or_eq_true, beq_iff_eq] at h
    rcases h with h | h
    · subst h
      simp [listHasSub, listStartsWith_refl]
    · simp [listHasSub, ih h]

theorem listHasSub_tail (pat : List Char) (c : Char) (rest : List Char)
    (h : listHasSub pat (c :: rest) = false) : listHasSub pat rest = false := by
  simp only [listHasSub, Bool.or_eq_false_iff] at h
  exact h.2

/-! ## Digit extraction (regexp \d+), isFromMySelf, isGroupJid -/

/-- takeDigits collects the longest leading run of ASCII digits
(the regexp class \d is exactly the ASCII digits in Go RE2). -/
def takeDigits : List Char → List Char
  | [] => []
  | c :: cs => if c.isDigit then c :: takeDigits cs else []

/-- dropThroughRun drops the longest leading run of ASCII digits. -/
def dropThroughRun : List Char → List Char
  | [] => []
  | c :: cs => if c.isDigit then dropThroughRun cs else c :: cs

/-- digitRunsAux scans the characters accumulating the current digit run
(in reverse); it returns the list of maximal digit runs, which is the
value of FindAllString of the pattern \d+ in Go. -/
def digitRunsAux : List Char → List Char → List String
  | [], acc => if acc.isEmpty then [] else [String.mk acc.reverse]
  | c :: cs, acc =>
    if c.isDigit then digitRunsAux cs (c :: acc)
    else if acc.isEmpty then digitRunsAux cs []
    else String.mk acc.reverse :: digitRunsAux cs []

/-- digitRuns s: all maximal runs of ASCII digits in s, in order;
embeds regexp.MustCompile of the pattern for one-or-more digits,
method FindAllString(s, -1). -/
def digitRuns (s : List Char) : List String :=
  digitRunsAux s []

/-- extractPhoneNumber embeds the Go helper of the same name: the first
maximal digit run of the JID, or the empty string when there is none. -/
def extractPhoneNumber (jid : String) : String :=
  (digitRuns jid.data).headD ""

/-- isFromMySelf embeds the Go helper: the global cli.Store.ID.String()
is passed explicitly as selfId. -/
def isFromMySelf (selfId jid : String) : Bool :=
  extractPhoneNumber jid == extractPhoneNumber selfId

/-- isGroupJid embeds the Go helper: strings.Contains(jid, "@g.us"). -/
def isGroupJid (jid : String) : Bool :=
  strContains jid "@g.us"

/-! ## Mime-to-extension derivation (ExtractMedia, lines 501-506) -/

/-- MimeLookupResult models the pair returned by Go
mime.ExtensionsByType: the extension list and whether err was non-nil. -/
structure MimeLookupResult where
  exts : List String
  isErr : Bool
deriving Repr, DecidableEq

/-- splitOnSlash embeds strings.Split(s, "/") over characters. -/
def splitOnSlash : List Char → List (List Char)
  | [] => [[]]
  | c :: cs =>
    let rest := splitOnSlash cs
    if c == '/' then [] :: rest
    else
      match rest with
      | r :: rs => (c :: r) :: rs
      | [] => [[c]]

/-- extensionFor embeds lines 501-506 of ExtractMedia verbatim:
if err is non-nil AND the extension list is non-empty, take its first
element; otherwise, if splitting the mime string on the slash yields
more than one part, prefix the last part with a dot; otherwise empty.
Note the source really guards the lookup branch with err non-nil. -/
def extensionFor (lookup : MimeLookupResult) (mimeType : String) : String :=
  if lookup.isErr && !lookup.exts.isEmpty then
    lookup.exts.headD ""
  else
    let parts := (splitOnSlash mimeType.data).map String.mk
    if parts.length > 1 then "." ++ parts.getLastD "" else ""

/-! ## ExtractMedia -/

/-- ExtractedMedia mirrors the Go struct of the same name. -/
structure ExtractedMedia where
  mediaPath : String
  mimeType : String
  caption : String
deriving Repr, DecidableEq

/-- The zero value of ExtractedMedia (what the Go function returns when
it returns early). -/
def emptyExtracted : ExtractedMedia := ⟨"", "", ""⟩

/-- The five downloadable media kinds of a message. -/
inductive MediaKind
  | image
  | sticker
  | video
  | audio
  | document
deriving Repr, DecidableEq

/-- MediaRef models one of the five waE2E media messages at the level
this pipeline reads them: a mime type hint and a caption (captions are
only read for image, video and document). -/
structure MediaRef where
  mimetype : String
  caption : String
deriving Repr, DecidableEq

/-- FsAction records the side-effecting calls of ExtractMedia. -/
inductive FsAction
  | download
  | writeFile (path : String) (data : List Nat)
deriving Repr, DecidableEq

/-- ExtractEnv fixes the outcome of the effectful collaborators of one
ExtractMedia call: the cli.Download result (bytes or error), the
mime.ExtensionsByType table, time.Now().Unix(), uuid.NewString() and
the os.WriteFile outcome. -/
structure ExtractEnv where
  downloadRes : Except String (List Nat)
  mimeLookup : String → MimeLookupResult
  nowUnix : Int
  uuid : String
  writeErr : Option String

/-- ExtractMedia embeds the Go function of the same name.  The first
component is the named return extractedMedia, the second the error
return, the third the trace of filesystem/network effects performed. -/
def ExtractMedia (storageLocation : String) (mediaFile : Option (MediaKind × MediaRef))
    (env : ExtractEnv) : ExtractedMedia × Option String × List FsAction :=
  match mediaFile with
  | none => (emptyExtracted, none, [])
  | some (kind, ref) =>
    match env.downloadRes with
    | .error e => (emptyExtracted, some e, [.download])
    | .ok data =>
      let mimeType := ref.mimetype
      let caption :=
        match kind with
        | .image => ref.caption
        | .audio => ""
        | .video => ref.caption
        | .sticker => ""
        | .document => ref.caption
      let extension := extensionFor (env.mimeLookup mimeType) mimeType
      let mediaPath := storageLocation ++ "/" ++ toString env.nowUnix ++ "-" ++ env.uuid ++ extension
      let em : ExtractedMedia := ⟨mediaPath, mimeType, caption⟩
      match env.writeErr with
      | some e => (em, some e, [.download, .writeFile mediaPath data])
      | none => (em, none, [.download, .writeFile mediaPath data])

example : extensionFor ⟨[".svg"], false⟩ "image/svg+xml" = ".svg+xml" := by decide
example : extensionFor ⟨[], true⟩ "" = "" := by decide
example : extensionFor ⟨[], false⟩ "application/x-custom" = ".x-custom" := by decide
example : extensionFor ⟨[".jpeg", ".jpg"], false⟩ "image/jpeg" = ".jpeg" := by decide
example : extractPhoneNumber "+6281234567890@g.us" = "6281234567890" := by decide
example : strContains "abc@g.usx" "@g.us" = true := by decide
example : strEndsWith "abc@g.us" "@g.us" = true := by decide

/-! ## ParseJID -/

/-- JID mirrors the user/server pair of a whatsmeow types.JID at the
granularity this code observes. -/
structure JID where
  user : String
  server : String
deriving Repr, DecidableEq

/-- DefaultUserServer is the whatsmeow constant types.DefaultUserServer. -/
def DefaultUserServer : String := "s.whatsapp.net"

/-- NewJID mirrors types.NewJID(user, server). -/
def NewJID (user server : String) : JID := ⟨user, server⟩

/-- stripLeadingPlus models lines 101-103 of ParseJID: the leading
character is inspected and a leading plus sign is removed.  (When the
argument is empty this inspection is the out-of-range index access;
ParseJID below maps that case to none.) -/
def stripLeadingPlus (arg : String) : String :=
  match arg.data with
  | [] => arg
  | c :: rest => if c == '+' then String.mk rest else arg

/-- ParseJID embeds the Go function.  The external types.ParseJID is an
oracle typesParseJID assumed total (it reports failure by an error
value).  A none result models the Go runtime index-out-of-range panic
raised by reading arg[0] of an empty string; some r models a normal
return, with errors collapsed to the single pkgError.ErrInvalidJID as
in the source. -/
def ParseJID (typesParseJID : String → Except Unit JID) (arg : String) :
    Option (Except Unit JID) :=
  match arg.data with
  | [] => none
  | _ :: _ =>
    let arg2 := stripLeadingPlus arg
    if strContains arg2 "@" then
      some (match typesParseJID arg2 with
        | .error _ => .error ()
        | .ok recipient => if recipient.user == "" then .error () else .ok recipient)
    else
      some (.ok (NewJID arg2 DefaultUserServer))

/-! ## Webhook delivery tail (shared by forwardReceipt and forwardToWebhook) -/

/-- PkgError models the pkg/error values this file produces; every
delivery failure is wrapped by pkgError.WebhookError. -/
inductive PkgError
  | webhookError (msg : String)
deriving Repr, DecidableEq

/-- HttpEnv fixes the outcomes of the three effectful steps of one
delivery: json.Marshal, http.NewRequest and client.Do.  statusCode is
the HTTP status of the response when the transport succeeds; the Go
code discards the response, so the field is recorded here to let us
state that it is ignored. -/
structure HttpEnv where
  marshalOk : Bool
  newRequestOk : Bool
  transportErr : Bool
  statusCode : Nat
deriving Repr, DecidableEq

/-- httpDeliver embeds the shared tail of forwardReceipt and
forwardToWebhook (marshal, build request, set header, client.Do).  The
second component counts the client.Do invocations performed. -/
def httpDeliver (env : HttpEnv) : Except PkgError Unit × Nat :=
  if !env.marshalOk then (.error (.webhookError "Failed to marshal body"), 0)
  else if !env.newRequestOk then (.error (.webhookError "error when create http object"), 0)
  else if env.transportErr then (.error (.webhookError "error when submit webhook"), 1)
  else (.ok (), 1)

/-! ## forwardReceipt -/

/-- ReceiptEvent carries the fields of events.Receipt that
forwardReceipt reads.  rtype is the underlying string of the
types.ReceiptType; the timestamp is kept opaque. -/
structure ReceiptEvent where
  source : String
  timestamp : Int
  rtype : String
  messageIds : List String
deriving Repr, DecidableEq

/-- ReceiptBody is the body map literal of forwardReceipt: exactly the
four keys source, timestamp, type and ids. -/
structure ReceiptBody where
  source : String
  timestamp : Int
  rtype : String
  ids : List String
deriving Repr, DecidableEq

/-- receiptBody builds the body of forwardReceipt from the event. -/
def receiptBody (evt : ReceiptEvent) : ReceiptBody :=
  { source := evt.source
    timestamp := evt.timestamp
    rtype := evt.rtype
    ids := evt.messageIds }

/-- forwardReceipt embeds the Go function: build the four-field body,
then marshal, build the request and POST it.  The middle component is
the body handed to client.Do when that call happens. -/
def forwardReceipt (evt : ReceiptEvent) (env : HttpEnv) :
    Except PkgError Unit × Option ReceiptBody × Nat :=
  let body := receiptBody evt
  let r := httpDeliver env
  (r.1, if r.2 == 1 then some body else none, r.2)

/-! ## The message event and forwardToWebhook -/

/-- CtxInfo carries the fields of a waE2E ContextInfo read here. -/
structure CtxInfo where
  stanzaId : String
  quotedConversation : String
  isForwarded : Bool
deriving Repr, DecidableEq

/-- ExtTextMsg carries the fields of a waE2E ExtendedTextMessage read
here; contextInfo is none when the pointer is nil. -/
structure ExtTextMsg where
  text : String
  contextInfo : Option CtxInfo
deriving Repr, DecidableEq

/-- MsgEvent carries the fields of an events.Message that the handler
and forwardToWebhook read.  chat is evt.Info.Chat.String(), source is
evt.Info.SourceString(), sender is evt.Info.Sender.  The five media
fields are none when the corresponding Get...Message() is nil.
Fields the body copies through verbatim and no claim touches
(contact, list, locations, order, view_once) are elided. -/
structure MsgEvent where
  infoId : String
  chat : String
  sender : String
  source : String
  pushName : String
  conversation : String
  extendedTextMessage : Option ExtTextMsg
  reactionText : String
  reactionKeyId : String
  hasReaction : Bool
  image : Option MediaRef
  sticker : Option MediaRef
  video : Option MediaRef
  audio : Option MediaRef
  document : Option MediaRef
deriving Repr, DecidableEq

/-- mediaOf reads the media field of the given kind. -/
def mediaOf (evt : MsgEvent) : MediaKind → Option MediaRef
  | .image => evt.image
  | .sticker => evt.sticker
  | .video => evt.video
  | .audio => evt.audio
  | .document => evt.document

/-- evtMessage mirrors the Go struct of the same name. -/
structure EvtMessage where
  id : String
  text : String
  repliedId : String
deriving Repr, DecidableEq

/-- evtReaction mirrors the Go struct of the same name. -/
structure EvtReaction where
  id : String
  message : String
deriving Repr, DecidableEq

/-- buildEvtMessage embeds lines 352-358: text prefers a non-empty
extended text, in which case repliedId is the nil-safe stanza id of the
context info. -/
def buildEvtMessage (evt : MsgEvent) : EvtMessage :=
  let base : EvtMessage := { id := evt.infoId, text := evt.conversation, repliedId := "" }
  match evt.extendedTextMessage with
  | none => base
  | some ext =>
    if ext.text != "" then
      { id := evt.infoId
        text := ext.text
        repliedId :=
          match ext.contextInfo with
          | some ci => ci.stanzaId
          | none => "" }
    else base

/-- buildQuoted embeds lines 360-365: the quoted conversation text, only
when the extended message and its context info are present and the text
is non-empty. -/
def buildQuoted (evt : MsgEvent) : Option String :=
  match evt.extendedTextMessage with
  | some ext =>
    match ext.contextInfo with
    | some ci => if ci.quotedConversation != "" then some ci.quotedConversation else none
    | none => none
  | none => none

/-- buildForwarded embeds lines 367-370. -/
def buildForwarded (evt : MsgEvent) : Bool :=
  match evt.extendedTextMessage with
  | some ext =>
    match ext.contextInfo with
    | some ci => ci.isForwarded
    | none => false
  | none => false

/-- buildReaction embeds lines 372-376. -/
def buildReaction (evt : MsgEvent) : EvtReaction :=
  if evt.hasReaction then ⟨evt.reactionKeyId, evt.reactionText⟩ else ⟨"", ""⟩

/-- MediaField is the value held by one of the five media keys of the
body map: the raw (possibly nil) message pointer placed by the map
literal, or the ExtractedMedia value that overwrites it. -/
inductive MediaField
  | raw (r : Option MediaRef)
  | extracted (em : ExtractedMedia)
deriving Repr, DecidableEq

/-- WebhookBody is the body map literal of forwardToWebhook restricted
to the modelled keys; fromStr is the key "from". -/
structure WebhookBody where
  audio : MediaField
  document : MediaField
  forwarded : Bool
  fromStr : String
  image : MediaField
  message : EvtMessage
  pushname : String
  quotedMessage : Option String
  reaction : EvtReaction
  sticker : MediaField
  video : MediaField
deriving Repr, DecidableEq

/-- initialBody is the body map literal of lines 378-396: every media
key defaults to the raw, undownloaded message pointer. -/
def initialBody (evt : MsgEvent) : WebhookBody :=
  { audio := .raw evt.audio
    document := .raw evt.document
    forwarded := buildForwarded evt
    fromStr := evt.source
    image := .raw evt.image
    message := buildEvtMessage evt
    pushname := evt.pushName
    quotedMessage := buildQuoted evt
    reaction := buildReaction evt
    sticker := .raw evt.sticker
    video := .raw evt.video }

/-- fieldOf reads the media key of the given kind from the body. -/
def fieldOf (b : WebhookBody) : MediaKind → MediaField
  | .image => b.image
  | .sticker => b.sticker
  | .video => b.video
  | .audio => b.audio
  | .document => b.document

/-- setField overwrites the media key of the given kind. -/
def setField (b : WebhookBody) (k : MediaKind) (f : MediaField) : WebhookBody :=
  match k with
  | .image => { b with image := f }
  | .sticker => { b with sticker := f }
  | .video => { b with video := f }
  | .audio => { b with audio := f }
  | .document => { b with document := f }

/-- kindErrName is the word used in the wrapped download error message
of each kind. -/
def kindErrName : MediaKind → String
  | .image => "image"
  | .sticker => "sticker"
  | .video => "video"
  | .audio => "audio"
  | .document => "document"

/-- FwState is the running state of the per-kind extraction sequence of
forwardToWebhook: the body so far and the ExtractMedia calls made. -/
structure FwState where
  body : WebhookBody
  calls : List MediaKind
deriving Repr, DecidableEq

/-- fwStep embeds one of the five per-kind blocks of lines 398-432:
when the media of the kind is present, call ExtractMedia (with the
environment the run provides for that call) and either fail with the
wrapped error or overwrite the media key with the extraction result. -/
def fwStep (pathMedia : String) (evt : MsgEvent) (envs : MediaKind → ExtractEnv)
    (k : MediaKind) (st : FwState) : FwState × Option PkgError :=
  match mediaOf evt k with
  | none => (st, none)
  | some ref =>
    let r := ExtractMedia pathMedia (some (k, ref)) (envs k)
    let st' : FwState := { st with calls := st.calls ++ [k] }
    match r.2.1 with
    | some e =>
      (st', some (.webhookError ("Failed to download " ++ kindErrName k ++ ": " ++ e)))
    | none => ({ body := setField st'.body k (.extracted r.1), calls := st'.calls }, none)

/-- fwLoop runs the per-kind blocks in source order, stopping at the
first failing present kind exactly as the early returns do. -/
def fwLoop (pathMedia : String) (evt : MsgEvent) (envs : MediaKind → ExtractEnv) :
    List MediaKind → FwState → FwState × Option PkgError
  | [], st => (st, none)
  | k :: ks, st =>
    match fwStep pathMedia evt envs k st with
    | (st', some e) => (st', some e)
    | (st', none) => fwLoop pathMedia evt envs ks st'

/-- fwKinds is the source order of the five per-kind blocks. -/
def fwKinds : List MediaKind := [.image, .sticker, .video, .audio, .document]

/-- ForwardOut packages what one forwardToWebhook run did. -/
structure ForwardOut where
  result : Except PkgError Unit
  body : WebhookBody
  calls : List MediaKind
  posted : Bool
deriving Repr

/-- forwardToWebhook embeds the Go function: build the body map with
raw media defaults, run the five extraction blocks (each failure
returns the wrapped error before any POST), then marshal, build the
request and POST once. -/
def forwardToWebhook (pathMedia : String) (evt : MsgEvent) (envs : MediaKind → ExtractEnv)
    (http : HttpEnv) : ForwardOut :=
  let st0 : FwState := ⟨initialBody evt, []⟩
  match fwLoop pathMedia evt envs fwKinds st0 with
  | (st, some e) => ⟨.error e, st.body, st.calls, false⟩
  | (st, none) =>
    let r := httpDeliver http
    ⟨r.1, st.body, st.calls, r.2 == 1⟩

/-- extractFailsAt says that the media of kind k is present and its
ExtractMedia call (under the environments of this run) reports an
error. -/
def extractFailsAt (pathMedia : String) (evt : MsgEvent) (envs : MediaKind → ExtractEnv)
    (k : MediaKind) : Bool :=
  match mediaOf evt k with
  | none => false
  | some ref => ((ExtractMedia pathMedia (some (k, ref)) (envs k)).2.1).isSome

/-! ## The events.Message branch of the handler -/

/-- AppConfig carries the config package values the handler reads. -/
structure AppConfig where
  whatsappAutoReplyMessage : String
  whatsappWebhook : String
  pathStorages : String
  pathMedia : String
deriving Repr, DecidableEq

/-- HandlerAction records the externally visible commands issued while
handling one events.Message: an ExtractMedia invocation on a present
media (each such invocation performs one cli.Download), a
cli.SendMessage, and a webhook POST. -/
inductive HandlerAction
  | extractCall (location : String) (kind : MediaKind)
  | sendMessage (dest : String) (text : String)
  | webhookPost
deriving Repr, DecidableEq

/-- handleMessage embeds the events.Message case of the handler (lines
227-263).  The imgEnv environment feeds the unconditional image
download of lines 241-249 (its outcome is only logged, so it does not
influence the trace); envs and http feed the forwardToWebhook call.
selfId stands for cli.Store.ID.String(). -/
def handleMessage (cfg : AppConfig) (selfId : String) (evt : MsgEvent)
    (envs : MediaKind → ExtractEnv) (http : HttpEnv) : List HandlerAction :=
  let imgActs : List HandlerAction :=
    match evt.image with
    | some _ => [.extractCall cfg.pathStorages .image]
    | none => []
  let replyActs : List HandlerAction :=
    if cfg.whatsappAutoReplyMessage != "" &&
        !isGroupJid evt.chat &&
        !strContains evt.source "broadcast" then
      [.sendMessage evt.sender cfg.whatsappAutoReplyMessage]
    else []
  let whActs : List HandlerAction :=
    if cfg.whatsappWebhook != "" &&
        !strContains evt.source "broadcast" &&
        !isFromMySelf selfId evt.source then
      let out := forwardToWebhook cfg.pathMedia evt envs http
      out.calls.map (fun k => .extractCall cfg.pathMedia k) ++
        (if out.posted then [HandlerAction.webhookPost] else [])
    else []
  imgActs ++ replyActs ++ whActs

/-- countExtractCalls counts the ExtractMedia invocations of one kind
in a handler trace (each is one download of that attachment). -/
def countExtractCalls (tr : List HandlerAction) (k : MediaKind) : Nat :=
  (tr.filter (fun a =>
    match a with
    | .extractCall _ k' => k' == k
    | _ => false)).length

/-- hasSendMessage says some auto-reply send appears in the trace. -/
def hasSendMessage (tr : List HandlerAction) : Bool :=
  tr.any (fun a =>
    match a with
    | .sendMessage _ _ => true
    | _ => false)

/-! ## History sync persistence -/

/-- historyFileName embeds the Sprintf of line 294. -/
def historyFileName (pathStorages : String) (startupTime : Int) (accountId : String)
    (id : Int) (syncType : String) : String :=
  pathStorages ++ "/history-" ++ toString startupTime ++ "-" ++ accountId ++ "-" ++
    toString id ++ "-" ++ syncType ++ ".json"

/-- historyNext embeds atomic.AddInt32 on the int32 counter: the stored
bit pattern (as a Nat below 2^32) is incremented with wraparound. -/
def historyNext (c : Nat) : Nat := (c + 1) % 4294967296

/-- historyRunAux processes the given sync-type list of HistorySyncChunk
events in arrival order (the atomic counter linearizes concurrent
arrivals into such an order), threading the counter bit pattern c and
returning the (sequence number, file path) pair of each chunk. -/
def historyRunAux (ps : String) (st : Int) (acc : String) :
    List String → Nat → List (Nat × String)
  | [], _ => []
  | t :: ts, c =>
    let c' := historyNext c
    (c', historyFileName ps st acc (Int.ofNat c') t) :: historyRunAux ps st acc ts c'

/-- historyRun is a whole-process run: the counter starts at the zero
value of the package-level historySyncID. -/
def historyRun (ps : String) (st : Int) (acc : String) (ts : List String) :
    List (Nat × String) :=
  historyRunAux ps st acc ts 0

/-- historySpecRun follows the words of the specification: the k-th
chunk (counting from zero) receives sequence number start + k and is
written to the path built from that sequence number and its sync type.
It is compared against historyRun, the run of the source counter. -/
def historySpecRun (ps : String) (st : Int) (acc : String) :
    Nat → List String → List (Nat × String)
  | _, [] => []
  | i, t :: ts =>
    (i, historyFileName ps st acc (Int.ofNat i) t) :: historySpecRun ps st acc (i + 1) ts

/-! ## Claims -/

/-- Claim C9: calling the media extraction operation with an absent
(nil) media reference returns the empty ExtractedMedia value and no
error, and performs no download and no filesystem write, whatever the
environment; this is the normal path for text-only messages, not a
failure. -/
theorem extractMedia_nil_media :
    ∀ (loc : String) (env : ExtractEnv),
      ExtractMedia loc none env = (emptyExtracted, none, []) := by
  intro loc env
  rfl

/-- Claim C1 (code bug): the extension derivation of ExtractMedia never
uses the mime-to-extension lookup result, because its guard demands a
non-nil error together with a non-empty extension list, while the Go
mime package returns a nil list whenever the error is non-nil.  First
two conjuncts: the lookup outcome is ignored whenever the library
invariant can hold (error nil with any extension list, or error non-nil
with the nil list), so the fallback governs every real call.  Last
conjuncts evaluate the code at concrete inputs: for mime type
image/svg+xml the standard lookup yields .svg yet the code produces
.svg+xml; image/jpeg produces .jpeg by fallback, application/x-custom
produces .x-custom, and the empty mime type produces the empty
extension. -/
theorem extensionFor_lookup_dead :
    (∀ (mime : String) (exts : List String),
        extensionFor ⟨exts, false⟩ mime = extensionFor ⟨[], false⟩ mime) ∧
    (∀ mime : String, extensionFor ⟨[], true⟩ mime = extensionFor ⟨[], false⟩ mime) ∧
    extensionFor ⟨[".svg"], false⟩ "image/svg+xml" = ".svg+xml" ∧
    extensionFor ⟨[".jpeg", ".jpg"], false⟩ "image/jpeg" = ".jpeg" ∧
    extensionFor ⟨[], false⟩ "application/x-custom" = ".x-custom" ∧
    extensionFor ⟨[], true⟩ "" = "" := by
  refine ⟨?_, ?_, by decide, by decide, by decide, by decide⟩
  · intro mime exts
    simp [extensionFor]
  · intro mime
    simp [extensionFor]

/-- Claim C3 counterexample: when the endpoint rejects the request at
the HTTP level (transport succeeds, status 500), the delivery function
returns nil rather than a wrapped delivery error, because the response
of client.Do is discarded; the claim, which says a non-transport-level
rejection by the endpoint is wrapped into the uniform delivery-error
kind and returned, is therefore false at this input. -/
theorem httpDeliver_ignores_endpoint_rejection :
    httpDeliver ⟨true, true, false, 500⟩ = (.ok (), 1) ∧
    ¬ ∃ msg, (httpDeliver ⟨true, true, false, 500⟩).1 = .error (.webhookError msg) := by
  refine ⟨rfl, ?_⟩
  rintro ⟨msg, h⟩
  simp [httpDeliver] at h

/-- Claim C3 (amended): for every webhook delivery attempt, a
serialization failure, a request-construction failure or a
transport-level network failure is wrapped into the uniform
webhookError kind and returned; a non-transport-level rejection by the
endpoint is ignored (the result does not depend on the response status
code); at most one POST is issued per event, exactly one when
serialization and request construction succeed (no retry or queueing);
on success the function returns nil. -/
theorem httpDeliver_uniform_error_single_attempt :
    ∀ env : HttpEnv,
      ((httpDeliver env).1 = .ok () ↔
        (env.marshalOk = true ∧ env.newRequestOk = true ∧ env.transportErr = false)) ∧
      ((httpDeliver env).1 = .ok () ∨
        ∃ msg, (httpDeliver env).1 = .error (.webhookError msg)) ∧
      (httpDeliver env).2 ≤ 1 ∧
      ((httpDeliver env).2 = 1 ↔ (env.marshalOk = true ∧ env.newRequestOk = true)) ∧
      (∀ s : Nat, httpDeliver { env with statusCode := s } = httpDeliver env) := by
  intro env
  obtain ⟨m, n, t, s⟩ := env
  cases m <;> cases n <;> cases t <;>
    simp [httpDeliver]

/-- Claim C3 witness: the amended theorem applied at a concrete
delivery environment whose serialization and request construction
succeed and whose transport fails. -/
theorem httpDeliver_uniform_error_single_attempt_witness :
    ∃ msg, (httpDeliver ⟨true, true, true, 0⟩).1 = .error (.webhookError msg) :=
  ((httpDeliver_uniform_error_single_attempt ⟨true, true, true, 0⟩).2.1).resolve_left
    (by simp [httpDeliver])

/-- Claim C8: a ReceiptUpdate event delivered to the webhook produces
exactly the four-field body of its source string, timestamp, receipt
type and message-id list.  The receipt type string of the event is
copied through verbatim into the key named type; instantiating it at
the string delivered together with ids ABC gives the payload of the
claim. -/
theorem forwardReceipt_payload_shape :
    ∀ (evt : ReceiptEvent) (env : HttpEnv),
      env.marshalOk = true → env.newRequestOk = true → env.transportErr = false →
      forwardReceipt evt env =
        (.ok (), some ⟨evt.source, evt.timestamp, evt.rtype, evt.messageIds⟩, 1) := by
  intro evt env hm hn ht
  obtain ⟨m, n, t, s⟩ := env
  subst hm
  subst hn
  subst ht
  simp [forwardReceipt, httpDeliver, receiptBody]

/-- Claim C8 witness: a Delivered receipt with message ids ABC yields
the claimed payload. -/
theorem forwardReceipt_payload_shape_witness :
    forwardReceipt ⟨"6281@s.whatsapp.net", 1700000000, "delivered", ["ABC"]⟩
        ⟨true, true, false, 200⟩ =
      (.ok (), some ⟨"6281@s.whatsapp.net", 1700000000, "delivered", ["ABC"]⟩, 1) :=
  forwardReceipt_payload_shape
    ⟨"6281@s.whatsapp.net", 1700000000, "delivered", ["ABC"]⟩
    ⟨true, true, false, 200⟩ rfl rfl rfl

/-- Claim C5: self-detection compares only the embedded digit
sequences, so two address strings whose digit-run lists agree receive
the same isFromMySelf verdict against every account id, independent of
suffix or domain; in particular the two example addresses, which share
the leading digit run 6281234567890, always agree. -/
theorem isFromMySelf_digit_sequence :
    (∀ (selfId a b : String), digitRuns a.data = digitRuns b.data →
        isFromMySelf selfId a = isFromMySelf selfId b) ∧
    (∀ selfId : String,
        isFromMySelf selfId "6281234567890@s.whatsapp.net" =
          isFromMySelf selfId "+6281234567890@g.us") := by
  constructor
  · intro selfId a b h
    simp [isFromMySelf, extractPhoneNumber, h]
  · intro selfId
    have h : extractPhoneNumber "6281234567890@s.whatsapp.net" =
        extractPhoneNumber "+6281234567890@g.us" := by decide
    simp [isFromMySelf, h]

/-- Claim C5 witness: the digit-sequence hypothesis holds at two
concrete addresses with different suffixes and the verdicts agree. -/
theorem isFromMySelf_digit_sequence_witness :
    digitRuns "123@s.whatsapp.net".data = digitRuns "+123@g.us".data ∧
      isFromMySelf "999" "123@s.whatsapp.net" = isFromMySelf "999" "+123@g.us" :=
  ⟨by decide, isFromMySelf_digit_sequence.1 "999" "123@s.whatsapp.net" "+123@g.us" (by decide)⟩

theorem strContains_stripLeadingPlus (arg pat : String)
    (h : strContains arg pat = false) :
    strContains (stripLeadingPlus arg) pat = false := by
  obtain ⟨data⟩ := arg
  cases data with
  | nil => exact h
  | cons c cs =>
    by_cases hc : c == '+'
    · have htail : listHasSub pat.data cs = false := listHasSub_tail pat.data c cs h
      simp only [stripLeadingPlus, hc, if_true]
      exact htail
    · simp only [stripLeadingPlus, hc, if_false]
      exact h

/-- Claim C10: ParseJID reads the first character of its argument
unconditionally, so on the empty string the Go code raises an
index-out-of-range panic (modelled as none); on every non-empty
argument it returns normally (the external types.ParseJID collaborator
is a total oracle), and on every non-empty argument containing no at
sign it returns, with no error, the JID whose server is the default
user server and whose user part is the argument without a leading plus
sign. -/
theorem parseJID_empty_panics_nonempty_total :
    (∀ p : String → Except Unit JID, ParseJID p "" = none) ∧
    (∀ (p : String → Except Unit JID) (arg : String), arg ≠ "" →
        (ParseJID p arg).isSome = true) ∧
    (∀ (p : String → Except Unit JID) (arg : String), arg ≠ "" →
        strContains arg "@" = false →
        ParseJID p arg = some (.ok (NewJID (stripLeadingPlus arg) DefaultUserServer))) := by
  refine ⟨fun p => rfl, ?_, ?_⟩
  · intro p arg h
    obtain ⟨data⟩ := arg
    cases data with
    | nil => exact absurd rfl h
    | cons c cs =>
      show (ParseJID p ⟨c :: cs⟩).isSome = true
      unfold ParseJID
      by_cases hat : strContains (stripLeadingPlus ⟨c :: cs⟩) "@"
      · simp [hat]
      · simp [hat]
  · intro p arg h hat
    have hat2 : strContains (stripLeadingPlus arg) "@" = false :=
      strContains_stripLeadingPlus arg "@" hat
    obtain ⟨data⟩ := arg
    cases data with
    | nil => exact absurd rfl h
    | cons c cs =>
      show ParseJID p ⟨c :: cs⟩ = _
      unfold ParseJID
      simp [hat2]

/-- Claim C10 witness: the total and no-at-sign cases at the concrete
non-empty argument of digits with a leading plus sign. -/
theorem parseJID_empty_panics_nonempty_total_witness :
    ("+628" ≠ "" ∧ strContains "+628" "@" = false) ∧
      ParseJID (fun _ => .error ()) "+628" =
        some (.ok (NewJID "628" DefaultUserServer)) :=
  ⟨⟨by decide, by decide⟩,
    parseJID_empty_panics_nonempty_total.2.2 (fun _ => .error ()) "+628"
      (by decide) (by decide)⟩

theorem historyRunAux_eq_spec (ps : String) (st : Int) (acc : String) :
    ∀ (ts : List String) (c : Nat), c + ts.length < 4294967296 →
      historyRunAux ps st acc ts c = historySpecRun ps st acc (c + 1) ts := by
  intro ts
  induction ts with
  | nil => intro c h; rfl
  | cons t ts ih =>
    intro c h
    have hc : c + 1 < 4294967296 := by
      simp only [List.length_cons] at h
      omega
    have hnext : historyNext c = c + 1 := Nat.mod_eq_of_lt hc
    have h2 : c + 1 + ts.length < 4294967296 := by
      simp only [List.length_cons] at h
      omega
    simp only [historyRunAux, historySpecRun, hnext, ih (c + 1) h2]

theorem historySpecRun_fst_ge (ps : String) (st : Int) (acc : String) :
    ∀ (ts : List String) (i x : Nat),
      x ∈ (historySpecRun ps st acc i ts).map Prod.fst → i ≤ x := by
  intro ts
  induction ts with
  | nil => intro i x hx; cases hx
  | cons t ts ih =>
    intro i x hx
    simp only [historySpecRun, List.map_cons, List.mem_cons] at hx
    rcases hx with hx | hx
    · omega
    · have := ih (i + 1) x (by simpa using hx)
      omega

theorem historySpecRun_pairwise (ps : String) (st : Int) (acc : String) :
    ∀ (ts : List String) (i : Nat),
      ((historySpecRun ps st acc i ts).map Prod.fst).Pairwise (· < ·) := by
  intro ts
  induction ts with
  | nil => intro i; simp [historySpecRun]
  | cons t ts ih =>
    intro i
    simp only [historySpecRun, List.map_cons, List.pairwise_cons]
    refine ⟨?_, ih (i + 1)⟩
    intro x hx
    have := historySpecRun_fst_ge ps st acc ts (i + 1) x (by simpa using hx)
    omega

/-- Claim C7: a run of HistorySyncChunk events draws sequence numbers
from the process-lifetime counter: the run of the source counter equals
the run described by the specification, in which the first chunk gets
number 1 and each later chunk the next number, with each chunk written
to the path built by historyFileName (storage root, process start unix
seconds, account id, sequence, sync type); consequently the sequence
numbers are strictly increasing and pairwise distinct.  The atomic
increment linearizes concurrent arrivals, modelled by the arrival
order; the run length is bounded by the positive range of the int32
counter. -/
theorem historySync_ids_unique_path :
    ∀ (ps : String) (st : Int) (acc : String) (ts : List String),
      ts.length < 2147483648 →
      historyRun ps st acc ts = historySpecRun ps st acc 1 ts ∧
      ((historyRun ps st acc ts).map Prod.fst).Pairwise (· < ·) ∧
      ((historyRun ps st acc ts).map Prod.fst).Nodup := by
  intro ps st acc ts h
  have he : historyRun ps st acc ts = historySpecRun ps st acc 1 ts := by
    have h0 := historyRunAux_eq_spec ps st acc ts 0 (by omega)
    simpa [historyRun] using h0
  refine ⟨he, ?_, ?_⟩
  · rw [he]
    exact historySpecRun_pairwise ps st acc ts 1
  · rw [he]
    exact (historySpecRun_pairwise ps st acc ts 1).imp (fun hlt => Nat.ne_of_lt hlt)

/-- Claim C7 witness: a three-chunk run; the ids are 1, 2, 3, pairwise
distinct, and each file path follows the history file-name format. -/
theorem historySync_ids_unique_path_witness :
    (["INITIAL_BOOTSTRAP", "RECENT", "PUSH_NAME"] : List String).length < 2147483648 ∧
      (historyRun "/storages" 1700000000 "628:1" ["INITIAL_BOOTSTRAP", "RECENT", "PUSH_NAME"] =
          historySpecRun "/storages" 1700000000 "628:1" 1
            ["INITIAL_BOOTSTRAP", "RECENT", "PUSH_NAME"] ∧
        ((historyRun "/storages" 1700000000 "628:1"
            ["INITIAL_BOOTSTRAP", "RECENT", "PUSH_NAME"]).map Prod.fst).Pairwise (· < ·) ∧
        ((historyRun "/storages" 1700000000 "628:1"
            ["INITIAL_BOOTSTRAP", "RECENT", "PUSH_NAME"]).map Prod.fst).Nodup) :=
  ⟨by decide,
    historySync_ids_unique_path "/storages" 1700000000 "628:1"
      ["INITIAL_BOOTSTRAP", "RECENT", "PUSH_NAME"] (by decide)⟩

theorem fieldOf_setField_same (b : WebhookBody) (k : MediaKind) (f : MediaField) :
    fieldOf (setField b k f) k = f := by
  cases k <;> rfl

theorem fieldOf_setField_other (b : WebhookBody) (k j : MediaKind) (f : MediaField)
    (h : j ≠ k) : fieldOf (setField b k f) j = fieldOf b j := by
  cases k <;> cases j <;> first | rfl | exact absurd rfl h

theorem fwStep_fail (pm : String) (evt : MsgEvent) (envs : MediaKind → ExtractEnv)
    (k : MediaKind) (st : FwState) (h : extractFailsAt pm evt envs k = true) :
    ∃ msg, (fwStep pm evt envs k st).2 = some (.webhookError msg) := by
  cases hm : mediaOf evt k with
  | none =>
    simp only [extractFailsAt, hm] at h
    exact Bool.noConfusion h
  | some ref =>
    cases he : (ExtractMedia pm (some (k, ref)) (envs k)).2.1 with
    | none =>
      simp only [extractFailsAt, hm, he, Option.isSome_none] at h
      exact Bool.noConfusion h
    | some e =>
      refine ⟨"Failed to download " ++ kindErrName k ++ ": " ++ e, ?_⟩
      simp only [fwStep, hm, he]

theorem fwStep_ok (pm : String) (evt : MsgEvent) (envs : MediaKind → ExtractEnv)
    (k : MediaKind) (st : FwState) (h : extractFailsAt pm evt envs k = false) :
    (fwStep pm evt envs k st).2 = none := by
  cases hm : mediaOf evt k with
  | none => simp only [fwStep, hm]
  | some ref =>
    cases he : (ExtractMedia pm (some (k, ref)) (envs k)).2.1 with
    | some e =>
      simp only [extractFailsAt, hm, he, Option.isSome_some] at h
      exact Bool.noConfusion h
    | none => simp only [fwStep, hm, he]

theorem fwStep_ok_body (pm : String) (evt : MsgEvent) (envs : MediaKind → ExtractEnv)
    (k : MediaKind) (st : FwState) (ref : MediaRef) (hm : mediaOf evt k = some ref)
    (he : (ExtractMedia pm (some (k, ref)) (envs k)).2.1 = none) :
    (fwStep pm evt envs k st).1.body =
      setField st.body k (.extracted (ExtractMedia pm (some (k, ref)) (envs k)).1) := by
  simp only [fwStep, hm, he]

theorem fwStep_none_id (pm : String) (evt : MsgEvent) (envs : MediaKind → ExtractEnv)
    (k : MediaKind) (st : FwState) (hm : mediaOf evt k = none) :
    fwStep pm evt envs k st = (st, none) := by
  simp only [fwStep, hm]

theorem fwStep_body_other (pm : String) (evt : MsgEvent) (envs : MediaKind → ExtractEnv)
    (k j : MediaKind) (st : FwState) (h : j ≠ k) :
    fieldOf (fwStep pm evt envs k st).1.body j = fieldOf st.body j := by
  cases hm : mediaOf evt k with
  | none => simp only [fwStep, hm]
  | some ref =>
    cases he : (ExtractMedia pm (some (k, ref)) (envs k)).2.1 with
    | some e => simp only [fwStep, hm, he]
    | none =>
      simp only [fwStep, hm, he]
      exact fieldOf_setField_other st.body k j _ h

theorem fwLoop_cons_ok (pm : String) (evt : MsgEvent) (envs : MediaKind → ExtractEnv)
    (j : MediaKind) (ks : List MediaKind) (st : FwState)
    (h : (fwStep pm evt envs j st).2 = none) :
    fwLoop pm evt envs (j :: ks) st = fwLoop pm evt envs ks (fwStep pm evt envs j st).1 := by
  show (match fwStep pm evt envs j st with
    | (st', some e) => (st', some e)
    | (st', none) => fwLoop pm evt envs ks st') = _
  cases hs : fwStep pm evt envs j st with
  | mk st' e =>
    cases e with
    | some e => rw [hs] at h; cases h
    | none => simp [hs]

theorem fwLoop_fail (pm : String) (evt : MsgEvent) (envs : MediaKind → ExtractEnv) :
    ∀ (ks : List MediaKind) (st : FwState),
      (∃ k ∈ ks, extractFailsAt pm evt envs k = true) →
      ∃ msg, (fwLoop pm evt envs ks st).2 = some (.webhookError msg) := by
  intro ks
  induction ks with
  | nil =>
    intro st h
    obtain ⟨k, hk, _⟩ := h
    cases hk
  | cons j ks ih =>
    intro st h
    by_cases hj : extractFailsAt pm evt envs j = true
    · obtain ⟨msg, hmsg⟩ := fwStep_fail pm evt envs j st hj
      refine ⟨msg, ?_⟩
      show (match fwStep pm evt envs j st with
        | (st', some e) => (st', some e)
        | (st', none) => fwLoop pm evt envs ks st').2 = _
      cases hs : fwStep pm evt envs j st with
      | mk st' e =>
        rw [hs] at hmsg
        simp only at hmsg
        subst hmsg
        rfl
    · have hjf : extractFailsAt pm evt envs j = false := by
        cases hb : extractFailsAt pm evt envs j
        · rfl
        · exact absurd hb hj
      have hok := fwStep_ok pm evt envs j st hjf
      rw [fwLoop_cons_ok pm evt envs j ks st hok]
      apply ih
      obtain ⟨k, hk, hkf⟩ := h
      rcases List.mem_cons.mp hk with hkj | hks
      · subst hkj; exact absurd hkf hj
      · exact ⟨k, hks, hkf⟩

theorem fwLoop_ok (pm : String) (evt : MsgEvent) (envs : MediaKind → ExtractEnv)
    (hall : ∀ k, extractFailsAt pm evt envs k = false) :
    ∀ (ks : List MediaKind) (st : FwState), (fwLoop pm evt envs ks st).2 = none := by
  intro ks
  induction ks with
  | nil => intro st; rfl
  | cons j ks ih =>
    intro st
    rw [fwLoop_cons_ok pm evt envs j ks st (fwStep_ok pm evt envs j st (hall j))]
    exact ih _

theorem fwLoop_fields_untouched (pm : String) (evt : MsgEvent)
    (envs : MediaKind → ExtractEnv) :
    ∀ (ks : List MediaKind) (st : FwState) (k : MediaKind), k ∉ ks →
      fieldOf (fwLoop pm evt envs ks st).1.body k = fieldOf st.body k := by
  intro ks
  induction ks with
  | nil => intro st k _; rfl
  | cons j ks ih =>
    intro st k hk
    have hkj : k ≠ j := fun h => hk (h ▸ List.mem_cons_self j ks)
    have hks : k ∉ ks := fun h => hk (List.mem_cons_of_mem j h)
    show fieldOf (match fwStep pm evt envs j st with
      | (st', some e) => (st', some e)
      | (st', none) => fwLoop pm evt envs ks st').1.body k = _
    cases hs : fwStep pm evt envs j st with
    | mk st' e =>
      have hb : fieldOf st'.body k = fieldOf st.body k := by
        have := fwStep_body_other pm evt envs j k st hkj
        rw [hs] at this
        exact this
      cases e with
      | some e => simpa using hb
      | none =>
        simp only
        rw [ih st' k hks]
        exact hb

theorem fwLoop_fields_set (pm : String) (evt : MsgEvent) (envs : MediaKind → ExtractEnv)
    (hall : ∀ k, extractFailsAt pm evt envs k = false) :
    ∀ (ks : List MediaKind) (st : FwState) (k : MediaKind) (ref : MediaRef),
      k ∈ ks → mediaOf evt k = some ref →
      fieldOf (fwLoop pm evt envs ks st).1.body k =
        .extracted (ExtractMedia pm (some (k, ref)) (envs k)).1 := by
  intro ks
  induction ks with
  | nil => intro st k ref hk _; cases hk
  | cons j ks ih =>
    intro st k ref hk hm
    have hok := fwStep_ok pm evt envs j st (hall j)
    rw [fwLoop_cons_ok pm evt envs j ks st hok]
    by_cases hks : k ∈ ks
    · exact ih _ k ref hks hm
    · have hkj : k = j := by
        rcases List.mem_cons.mp hk with h | h
        · exact h
        · exact absurd h hks
      subst hkj
      rw [fwLoop_fields_untouched pm evt envs ks _ k hks]
      have he : (ExtractMedia pm (some (k, ref)) (envs k)).2.1 = none := by
        have hf := hall k
        cases he2 : (ExtractMedia pm (some (k, ref)) (envs k)).2.1 with
        | none => rfl
        | some e =>
          simp only [extractFailsAt, hm, he2, Option.isSome_some] at hf
          exact Bool.noConfusion hf
      rw [fwStep_ok_body pm evt envs k st ref hm he]
      exact fieldOf_setField_same st.body k _

theorem mem_fwKinds (k : MediaKind) : k ∈ fwKinds := by
  cases k <;> simp [fwKinds]

/-- Claim C2: in forwardToWebhook, every media key of the body defaults
to the raw undownloaded reference; if the extraction of some present
attachment fails, the function returns the uniform webhook error and no
POST is issued; if every present attachment extracts successfully, each
present media key of the delivered body is overwritten with the
extraction result, whose mediaPath field is the extracted file path. -/
theorem forwardToWebhook_media_gate :
    ∀ (pm : String) (evt : MsgEvent) (envs : MediaKind → ExtractEnv) (http : HttpEnv),
      (∀ k, fieldOf (initialBody evt) k = .raw (mediaOf evt k)) ∧
      ((∃ k, extractFailsAt pm evt envs k = true) →
        (forwardToWebhook pm evt envs http).posted = false ∧
        ∃ msg, (forwardToWebhook pm evt envs http).result = .error (.webhookError msg)) ∧
      ((∀ k, extractFailsAt pm evt envs k = false) →
        ∀ k ref, mediaOf evt k = some ref →
          fieldOf (forwardToWebhook pm evt envs http).body k =
            .extracted (ExtractMedia pm (some (k, ref)) (envs k)).1) := by
  intro pm evt envs http
  refine ⟨?_, ?_, ?_⟩
  · intro k
    cases k <;> rfl
  · intro h
    obtain ⟨k, hk⟩ := h
    obtain ⟨msg, hmsg⟩ :=
      fwLoop_fail pm evt envs fwKinds ⟨initialBody evt, []⟩ ⟨k, mem_fwKinds k, hk⟩
    cases hl : fwLoop pm evt envs fwKinds ⟨initialBody evt, []⟩ with
    | mk st e =>
      rw [hl] at hmsg
      simp only at hmsg
      subst hmsg
      refine ⟨?_, msg, ?_⟩
      · simp only [forwardToWebhook, hl]
      · simp only [forwardToWebhook, hl]
  · intro hall k ref hm
    have hnone := fwLoop_ok pm evt envs hall fwKinds ⟨initialBody evt, []⟩
    have hfield := fwLoop_fields_set pm evt envs hall fwKinds ⟨initialBody evt, []⟩
      k ref (mem_fwKinds k) hm
    cases hl : fwLoop pm evt envs fwKinds ⟨initialBody evt, []⟩ with
    | mk st e =>
      rw [hl] at hnone hfield
      simp only at hnone hfield
      subst hnone
      simp only [forwardToWebhook, hl]
      exact hfield

/-- Concrete message event used by the C2 witness: an image attachment
and nothing else. -/
def c2evt : MsgEvent :=
  { infoId := "MSG1"
    chat := "628111@s.whatsapp.net"
    sender := "628111@s.whatsapp.net"
    source := "628111@s.whatsapp.net in 628222@s.whatsapp.net"
    pushName := "alice"
    conversation := "look"
    extendedTextMessage := none
    reactionText := ""
    reactionKeyId := ""
    hasReaction := false
    image := some ⟨"image/jpeg", "a photo"⟩
    sticker := none
    video := none
    audio := none
    document := none }

/-- Environments under which every download fails (for the C2 witness
abort part). -/
def c2envsBad : MediaKind → ExtractEnv :=
  fun _ => ⟨.error "dial tcp refused", fun _ => ⟨[], false⟩, 1700000000, "uuid-1", none⟩

/-- Environments under which every extraction succeeds (for the C2
witness overwrite part). -/
def c2envsOk : MediaKind → ExtractEnv :=
  fun _ => ⟨.ok [1, 2, 3], fun _ => ⟨[], false⟩, 1700000000, "uuid-1", none⟩

/-- Claim C2 witness: at a concrete event carrying one image, a failing
download aborts delivery with the wrapped error and no POST, while a
successful run overwrites the image key with the extraction result. -/
theorem forwardToWebhook_media_gate_witness :
    ((∃ k, extractFailsAt "/media" c2evt c2envsBad k = true) ∧
      ((forwardToWebhook "/media" c2evt c2envsBad ⟨true, true, false, 200⟩).posted = false ∧
        ∃ msg, (forwardToWebhook "/media" c2evt c2envsBad ⟨true, true, false, 200⟩).result =
          .error (.webhookError msg))) ∧
    ((∀ k, extractFailsAt "/media" c2evt c2envsOk k = false) ∧
      fieldOf (forwardToWebhook "/media" c2evt c2envsOk ⟨true, true, false, 200⟩).body .image =
        .extracted (ExtractMedia "/media" (some (.image, ⟨"image/jpeg", "a photo"⟩))
          (c2envsOk .image)).1) :=
  ⟨⟨⟨.image, by decide⟩,
      (forwardToWebhook_media_gate "/media" c2evt c2envsBad ⟨true, true, false, 200⟩).2.1
        ⟨.image, by decide⟩⟩,
    ⟨fun k => by cases k <;> decide,
      (forwardToWebhook_media_gate "/media" c2evt c2envsOk ⟨true, true, false, 200⟩).2.2
        (fun k => by cases k <;> decide) .image ⟨"image/jpeg", "a photo"⟩ rfl⟩⟩

/-- countKindCalls counts the occurrences of one kind in a call list. -/
def countKindCalls (l : List MediaKind) (k : MediaKind) : Nat :=
  (l.filter (fun j => j == k)).length

theorem countKindCalls_append (a b : List MediaKind) (k : MediaKind) :
    countKindCalls (a ++ b) k = countKindCalls a k + countKindCalls b k := by
  simp [countKindCalls, List.filter_append]

theorem fwLoop_cons (pm : String) (evt : MsgEvent) (envs : MediaKind → ExtractEnv)
    (j : MediaKind) (ks : List MediaKind) (st : FwState) :
    fwLoop pm evt envs (j :: ks) st =
      match (fwStep pm evt envs j st).2 with
      | some e => ((fwStep pm evt envs j st).1, some e)
      | none => fwLoop pm evt envs ks (fwStep pm evt envs j st).1 := by
  show (match fwStep pm evt envs j st with
    | (st', some e) => (st', some e)
    | (st', none) => fwLoop pm evt envs ks st') = _
  cases fwStep pm evt envs j st with
  | mk st' e => cases e <;> rfl

theorem fwStep_calls (pm : String) (evt : MsgEvent) (envs : MediaKind → ExtractEnv)
    (j : MediaKind) (st : FwState) :
    (fwStep pm evt envs j st).1.calls =
      st.calls ++ (match mediaOf evt j with | some _ => [j] | none => []) := by
  cases hm : mediaOf evt j with
  | none => simp [fwStep, hm]
  | some ref =>
    cases he : (ExtractMedia pm (some (j, ref)) (envs j)).2.1 with
    | some e => simp [fwStep, hm, he]
    | none => simp [fwStep, hm, he]

theorem fwLoop_calls_le (pm : String) (evt : MsgEvent) (envs : MediaKind → ExtractEnv) :
    ∀ (ks : List MediaKind) (st : FwState) (k : MediaKind),
      countKindCalls (fwLoop pm evt envs ks st).1.calls k ≤
        countKindCalls st.calls k + countKindCalls ks k := by
  intro ks
  induction ks with
  | nil => intro st k; exact Nat.le_add_right _ _
  | cons j ks ih =>
    intro st k
    rw [fwLoop_cons]
    have hle : countKindCalls (fwStep pm evt envs j st).1.calls k ≤
        countKindCalls st.calls k + countKindCalls [j] k := by
      rw [fwStep_calls, countKindCalls_append]
      have hX : countKindCalls (match mediaOf evt j with | some _ => [j] | none => []) k ≤
          countKindCalls [j] k := by
        cases mediaOf evt j
        · exact Nat.zero_le _
        · exact Nat.le_refl _
      omega
    have hc : countKindCalls (j :: ks) k = countKindCalls [j] k + countKindCalls ks k :=
      countKindCalls_append [j] ks k
    cases he : (fwStep pm evt envs j st).2 with
    | some e =>
      simp only
      omega
    | none =>
      simp only
      have := ih (fwStep pm evt envs j st).1 k
      omega

theorem fwLoop_calls_absent (pm : String) (evt : MsgEvent) (envs : MediaKind → ExtractEnv)
    (k : MediaKind) (hm : mediaOf evt k = none) :
    ∀ (ks : List MediaKind) (st : FwState),
      countKindCalls (fwLoop pm evt envs ks st).1.calls k = countKindCalls st.calls k := by
  intro ks
  induction ks with
  | nil => intro st; rfl
  | cons j ks ih =>
    intro st
    rw [fwLoop_cons]
    have heq : countKindCalls (fwStep pm evt envs j st).1.calls k =
        countKindCalls st.calls k := by
      rw [fwStep_calls, countKindCalls_append]
      cases hmj : mediaOf evt j with
      | none => simp [countKindCalls]
      | some ref =>
        have hjk : (j == k) = false := by
          cases hb : j == k
          · rfl
          · have hjeq : j = k := eq_of_beq hb
            subst hjeq
            rw [hm] at hmj
            cases hmj
        simp [countKindCalls, List.filter_cons, hjk]
    cases he : (fwStep pm evt envs j st).2 with
    | some e => simpa using heq
    | none =>
      simp only
      rw [ih]
      exact heq

theorem forwardToWebhook_calls (pm : String) (evt : MsgEvent)
    (envs : MediaKind → ExtractEnv) (http : HttpEnv) :
    (forwardToWebhook pm evt envs http).calls =
      (fwLoop pm evt envs fwKinds ⟨initialBody evt, []⟩).1.calls := by
  cases hl : fwLoop pm evt envs fwKinds ⟨initialBody evt, []⟩ with
  | mk st e => cases e <;> simp [forwardToWebhook, hl]

theorem countExtractCalls_append (a b : List HandlerAction) (k : MediaKind) :
    countExtractCalls (a ++ b) k = countExtractCalls a k + countExtractCalls b k := by
  simp [countExtractCalls, List.filter_append]

theorem countExtractCalls_map_extract (pm : String) (l : List MediaKind) (k : MediaKind) :
    countExtractCalls (l.map (fun j => .extractCall pm j)) k = countKindCalls l k := by
  induction l with
  | nil => rfl
  | cons j l ih =>
    cases hjk : (j == k) <;>
      simp only [List.map_cons, countExtractCalls, countKindCalls, List.filter_cons, hjk] <;>
      simp only [countExtractCalls, countKindCalls] at ih <;>
      simp [ih]

theorem countExtractCalls_postOpt (b : Bool) (k : MediaKind) :
    countExtractCalls (if b then [HandlerAction.webhookPost] else []) k = 0 := by
  cases b <;> rfl

theorem countExtractCalls_replyOpt (b : Bool) (d t : String) (k : MediaKind) :
    countExtractCalls (if b then [HandlerAction.sendMessage d t] else []) k = 0 := by
  cases b <;> rfl

theorem countKindCalls_fwKinds (k : MediaKind) : countKindCalls fwKinds k = 1 := by
  cases k <;> decide

theorem countExtractCalls_nil (k : MediaKind) : countExtractCalls [] k = 0 := rfl

theorem countExtractCalls_single_extract (loc : String) (j k : MediaKind) :
    countExtractCalls [HandlerAction.extractCall loc j] k = if j == k then 1 else 0 := by
  cases hjk : j == k <;> simp [countExtractCalls, List.filter_cons, hjk]

theorem countExtractCalls_cons_extract (loc : String) (j k : MediaKind)
    (tr : List HandlerAction) :
    countExtractCalls (HandlerAction.extractCall loc j :: tr) k =
      (if j == k then 1 else 0) + countExtractCalls tr k := by
  cases hjk : j == k <;> simp [countExtractCalls, List.filter_cons, hjk] <;> omega

theorem countExtractCalls_cons_send (d t : String) (k : MediaKind)
    (tr : List HandlerAction) :
    countExtractCalls (HandlerAction.sendMessage d t :: tr) k = countExtractCalls tr k := by
  simp [countExtractCalls, List.filter_cons]

theorem countExtractCalls_cons_post (k : MediaKind) (tr : List HandlerAction) :
    countExtractCalls (HandlerAction.webhookPost :: tr) k = countExtractCalls tr k := by
  simp [countExtractCalls, List.filter_cons]

theorem countExtractCalls_handleMessage (cfg : AppConfig) (selfId : String)
    (evt : MsgEvent) (envs : MediaKind → ExtractEnv) (http : HttpEnv) (k : MediaKind) :
    countExtractCalls (handleMessage cfg selfId evt envs http) k =
      (match evt.image, k with
        | some _, .image => 1
        | _, _ => 0) +
      (if (cfg.whatsappWebhook != "" && !strContains evt.source "broadcast" &&
            !isFromMySelf selfId evt.source) then
        countKindCalls (forwardToWebhook cfg.pathMedia evt envs http).calls k
      else 0) := by
  cases hwh : (cfg.whatsappWebhook != "" && !strContains evt.source "broadcast" &&
      !isFromMySelf selfId evt.source) <;>
  cases hrep : (cfg.whatsappAutoReplyMessage != "" && !isGroupJid evt.chat &&
      !strContains evt.source "broadcast") <;>
  cases himg : evt.image <;>
  cases k <;>
    simp [handleMessage, hwh, hrep, himg, countExtractCalls_append,
      countExtractCalls_map_extract, countExtractCalls_postOpt,
      countExtractCalls_cons_extract, countExtractCalls_cons_send,
      countExtractCalls_cons_post, countExtractCalls_nil]

/-- Concrete application configuration for claim C4: webhook configured,
auto-reply empty. -/
def c4cfg : AppConfig := ⟨"", "http://webhook.example/wa", "/storages", "/media"⟩

/-- Concrete message event for claim C4: one image attachment from a
plain user chat. -/
def c4evt : MsgEvent :=
  { infoId := "IMG1"
    chat := "628111@s.whatsapp.net"
    sender := "628111@s.whatsapp.net"
    source := "628111@s.whatsapp.net"
    pushName := "bob"
    conversation := ""
    extendedTextMessage := none
    reactionText := ""
    reactionKeyId := ""
    hasReaction := false
    image := some ⟨"image/jpeg", "pic"⟩
    sticker := none
    video := none
    audio := none
    document := none }

/-- Extraction environments for claim C4 in which every download and
write succeeds. -/
def c4envs : MediaKind → ExtractEnv :=
  fun _ => ⟨.ok [9, 9], fun _ => ⟨[], false⟩, 1700000001, "uuid-2", none⟩

/-- Claim C4 counterexample: at a concrete MessageReceived event with
one image attachment, webhook configured, not broadcast and not from
self, the handler extracts (hence downloads) the image attachment
twice while handling the single event: once unconditionally into the
storages path and once more inside forwardToWebhook into the media
path.  This contradicts the claim that no attachment of a single event
is downloaded more than once per receipt. -/
theorem handler_image_double_extract :
    countExtractCalls
        (handleMessage c4cfg "999888777" c4evt c4envs ⟨true, true, false, 200⟩) .image = 2 ∧
      ¬ countExtractCalls
          (handleMessage c4cfg "999888777" c4evt c4envs ⟨true, true, false, 200⟩) .image ≤ 1 := by
  exact ⟨by decide, by decide⟩

/-- Claim C4 (amended): while handling one MessageReceived event, each
of sticker, video, audio and document is extracted at most once; the
image attachment may be extracted up to twice (once by the handler
itself and once by webhook forwarding); an attachment of a kind that is
absent from the event is never extracted. -/
theorem handler_extract_call_bounds :
    ∀ (cfg : AppConfig) (selfId : String) (evt : MsgEvent)
      (envs : MediaKind → ExtractEnv) (http : HttpEnv) (k : MediaKind),
      countExtractCalls (handleMessage cfg selfId evt envs http) k ≤ 2 ∧
      (k ≠ .image → countExtractCalls (handleMessage cfg selfId evt envs http) k ≤ 1) ∧
      (mediaOf evt k = none →
        countExtractCalls (handleMessage cfg selfId evt envs http) k = 0) := by
  intro cfg selfId evt envs http k
  have hwc : countKindCalls (forwardToWebhook cfg.pathMedia evt envs http).calls k ≤ 1 := by
    rw [forwardToWebhook_calls]
    have h1 := fwLoop_calls_le cfg.pathMedia evt envs fwKinds ⟨initialBody evt, []⟩ k
    have h2 : countKindCalls (FwState.mk (initialBody evt) []).calls k = 0 := rfl
    rw [h2, countKindCalls_fwKinds] at h1
    omega
  have himg1 : (match evt.image, k with
      | some _, MediaKind.image => 1
      | _, _ => 0) ≤ 1 := by
    cases evt.image <;> cases k <;> simp
  rw [countExtractCalls_handleMessage]
  refine ⟨?_, ?_, ?_⟩
  · cases hwh : (cfg.whatsappWebhook != "" && !strContains evt.source "broadcast" &&
        !isFromMySelf selfId evt.source) <;> simp <;> omega
  · intro hk
    have himg0 : (match evt.image, k with
        | some _, MediaKind.image => 1
        | _, _ => 0) = 0 := by
      cases evt.image <;> cases k <;> simp_all
    rw [himg0]
    cases hwh : (cfg.whatsappWebhook != "" && !strContains evt.source "broadcast" &&
        !isFromMySelf selfId evt.source) <;> simp <;> omega
  · intro hm
    have himg0 : (match evt.image, k with
        | some _, MediaKind.image => 1
        | _, _ => 0) = 0 := by
      cases hi : evt.image <;> cases k <;> simp_all [mediaOf]
    have hwc0 : countKindCalls (forwardToWebhook cfg.pathMedia evt envs http).calls k = 0 := by
      rw [forwardToWebhook_calls]
      exact fwLoop_calls_absent cfg.pathMedia evt envs k hm fwKinds ⟨initialBody evt, []⟩
    rw [himg0, hwc0]
    cases hwh : (cfg.whatsappWebhook != "" && !strContains evt.source "broadcast" &&
        !isFromMySelf selfId evt.source) <;> simp

/-- Claim C4 witness: the amended bounds applied at the concrete event
of the counterexample, for a kind other than image and for an absent
kind. -/
theorem handler_extract_call_bounds_witness :
    (MediaKind.sticker ≠ MediaKind.image ∧
      countExtractCalls
        (handleMessage c4cfg "999888777" c4evt c4envs ⟨true, true, false, 200⟩) .sticker ≤ 1) ∧
    (mediaOf c4evt .video = none ∧
      countExtractCalls
        (handleMessage c4cfg "999888777" c4evt c4envs ⟨true, true, false, 200⟩) .video = 0) :=
  ⟨⟨by decide,
      (handler_extract_call_bounds c4cfg "999888777" c4evt c4envs
        ⟨true, true, false, 200⟩ .sticker).2.1 (by decide)⟩,
    ⟨rfl,
      (handler_extract_call_bounds c4cfg "999888777" c4evt c4envs
        ⟨true, true, false, 200⟩ .video).2.2 rfl⟩⟩

theorem hasSendMessage_append (a b : List HandlerAction) :
    hasSendMessage (a ++ b) = (hasSendMessage a || hasSendMessage b) := by
  simp [hasSendMessage, List.any_append]

theorem hasSendMessage_map_extract (pm : String) (l : List MediaKind) :
    hasSendMessage (l.map (fun j => .extractCall pm j)) = false := by
  induction l with
  | nil => rfl
  | cons j l ih =>
    simp only [List.map_cons, hasSendMessage, List.any_cons] at ih ⊢
    simpa using ih

theorem hasSendMessage_postOpt (b : Bool) :
    hasSendMessage (if b then [HandlerAction.webhookPost] else []) = false := by
  cases b <;> rfl

theorem sendMessage_mem_handleMessage (cfg : AppConfig) (selfId : String) (evt : MsgEvent)
    (envs : MediaKind → ExtractEnv) (http : HttpEnv) (d t : String)
    (hmem : HandlerAction.sendMessage d t ∈ handleMessage cfg selfId evt envs http) :
    d = evt.sender ∧ t = cfg.whatsappAutoReplyMessage := by
  cases hrep : (cfg.whatsappAutoReplyMessage != "" && !isGroupJid evt.chat &&
      !strContains evt.source "broadcast") <;>
  cases hwh : (cfg.whatsappWebhook != "" && !strContains evt.source "broadcast" &&
      !isFromMySelf selfId evt.source) <;>
  cases himg : evt.image <;>
  cases hp : (forwardToWebhook cfg.pathMedia evt envs http).posted <;>
    simp_all [handleMessage]

theorem hasSendMessage_handleMessage (cfg : AppConfig) (selfId : String) (evt : MsgEvent)
    (envs : MediaKind → ExtractEnv) (http : HttpEnv) :
    hasSendMessage (handleMessage cfg selfId evt envs http) =
      (cfg.whatsappAutoReplyMessage != "" && !isGroupJid evt.chat &&
        !strContains evt.source "broadcast") := by
  cases hrep : (cfg.whatsappAutoReplyMessage != "" && !isGroupJid evt.chat &&
      !strContains evt.source "broadcast") <;>
  cases hwh : (cfg.whatsappWebhook != "" && !strContains evt.source "broadcast" &&
      !isFromMySelf selfId evt.source) <;>
  cases himg : evt.image <;>
    simp [handleMessage, hrep, hwh, himg, hasSendMessage_append,
      hasSendMessage_map_extract, hasSendMessage_postOpt, hasSendMessage]

/-- Claim C6: the auto-reply decision of the handler: no auto-reply is
ever sent for an event whose chat address is group-class (ends with the
group suffix) or whose source string carries the broadcast marker, even
when an auto-reply text is configured; an auto-reply appears in the
trace exactly when the configured text is non-empty, the chat is not a
group and the source is not broadcast; and every auto-reply in the
trace goes to the sender of the event and carries the configured
text. -/
theorem autoReply_gating :
    ∀ (cfg : AppConfig) (selfId : String) (evt : MsgEvent)
      (envs : MediaKind → ExtractEnv) (http : HttpEnv),
      ((strEndsWith evt.chat "@g.us" = true ∨ strContains evt.source "broadcast" = true) →
        hasSendMessage (handleMessage cfg selfId evt envs http) = false) ∧
      (hasSendMessage (handleMessage cfg selfId evt envs http) = true ↔
        (cfg.whatsappAutoReplyMessage ≠ "" ∧ isGroupJid evt.chat = false ∧
          strContains evt.source "broadcast" = false)) ∧
      (∀ d t, HandlerAction.sendMessage d t ∈ handleMessage cfg selfId evt envs http →
        d = evt.sender ∧ t = cfg.whatsappAutoReplyMessage) := by
  intro cfg selfId evt envs http
  refine ⟨?_, ?_, ?_⟩
  · intro h
    rw [hasSendMessage_handleMessage]
    rcases h with h | h
    · have hg : isGroupJid evt.chat = true :=
        listHasSub_of_suffix "@g.us".data evt.chat.data h
      simp [hg]
    · simp [h]
  · rw [hasSendMessage_handleMessage]
    simp [Bool.and_eq_true, bne_iff_ne, Bool.not_eq_true', and_assoc]
  · intro d t hmem
    exact sendMessage_mem_handleMessage cfg selfId evt envs http d t hmem

/-- Concrete message event for the C6 witness: a group chat whose
source also carries the broadcast marker. -/
def c6evt : MsgEvent :=
  { infoId := "G1"
    chat := "120363-4567@g.us"
    sender := "628111@s.whatsapp.net"
    source := "status@broadcast"
    pushName := "carol"
    conversation := "hello"
    extendedTextMessage := none
    reactionText := ""
    reactionKeyId := ""
    hasReaction := false
    image := none
    sticker := none
    video := none
    audio := none
    document := none }

/-- Claim C6 witness: with an auto-reply text configured, a group-class
chat address suppresses the auto-reply. -/
theorem autoReply_gating_witness :
    (strEndsWith c6evt.chat "@g.us" = true ∨ strContains c6evt.source "broadcast" = true) ∧
      hasSendMessage (handleMessage ⟨"thanks, I will reply soon", "", "/s", "/m"⟩ "999"
        c6evt (fun _ => ⟨.ok [], fun _ => ⟨[], false⟩, 0, "u", none⟩)
        ⟨true, true, false, 200⟩) = false :=
  ⟨Or.inl (by decide),
    (autoReply_gating ⟨"thanks, I will reply soon", "", "/s", "/m"⟩ "999" c6evt
      (fun _ => ⟨.ok [], fun _ => ⟨[], false⟩, 0, "u", none⟩)
      ⟨true, true, false, 200⟩).1 (Or.inl (by decide))⟩

end Wa
